import Mathlib

/-!
Shallow embedding of the booking core of the `zapis_bot` repository
(`database.py`, `handlers.py`, `bot.py`).

The SQLite store is modelled as lists of rows with explicit
auto-increment counters; every database method becomes a pure function on
`DBState`.  Dates and times are the `YYYY-MM-DD` / `HH:MM` strings the code
stores; datetimes are linearised to minutes via a civil-calendar
conversion, so Python's `timedelta(hours=24)` becomes a subtraction of
`1440` minutes.  The APScheduler job set is a list of `(id, run date)`
pairs; `add_job(..., replace_existing=True)` replaces the job with the
same id.
-/

namespace Zapis

/-- A row of the `users` table. -/
structure User where
  id : Nat
  tg_id : Nat
  name : Option String
  phone : Option String
deriving Repr, DecidableEq

/-- A row of the `slots` table. -/
structure Slot where
  id : Nat
  date : String
  time : String
  is_available : Bool
deriving Repr, DecidableEq

/-- A row of the `bookings` table. -/
structure Booking where
  id : Nat
  user_id : Nat
  slot_id : Nat
  status : String
  created_at : Int
deriving Repr, DecidableEq

/-- A row of the `reminders` table (`booking_id` is UNIQUE). -/
structure Reminder where
  booking_id : Nat
  run_at : Int
  job_id : String
deriving Repr, DecidableEq

/-- The durable SQLite store, with the auto-increment counters made
explicit. -/
structure DBState where
  users : List User
  slots : List Slot
  bookings : List Booking
  reminders : List Reminder
  nextUserId : Nat
  nextSlotId : Nat
  nextBookingId : Nat
deriving Repr, DecidableEq

/-- The freshly initialised database (`Database.init` creates empty
tables; SQLite auto-increment starts at 1). -/
def dbInit : DBState := ⟨[], [], [], [], 1, 1, 1⟩

/-- Query `SELECT id FROM users WHERE tg_id = ?` (first row). -/
def findUserByTg (s : DBState) (tg : Nat) : Option User :=
  s.users.find? (fun u => u.tg_id == tg)

/-- Method `Database.get_or_create_user`: return the id of the user with this
Telegram id, inserting a fresh row (NULL name and phone) if absent. -/
def get_or_create_user (s : DBState) (tg : Nat) : Nat × DBState :=
  match findUserByTg s tg with
  | some u => (u.id, s)
  | none =>
      (s.nextUserId,
        { s with users := s.users ++ [⟨s.nextUserId, tg, none, none⟩],
                 nextUserId := s.nextUserId + 1 })

/-- Method `Database.update_user_info`: `UPDATE users SET name = ?, phone = ?
WHERE tg_id = ?`. -/
def update_user_info (s : DBState) (tg : Nat) (name phone : String) : DBState :=
  { s with users := s.users.map (fun u =>
      if u.tg_id == tg then { u with name := some name, phone := some phone } else u) }

/-- Method `Database.create_slot`: insert one available slot; `date` and `time`
are the already-formatted `YYYY-MM-DD` / `HH:MM` strings. -/
def create_slot (s : DBState) (d t : String) : DBState :=
  { s with slots := s.slots ++ [⟨s.nextSlotId, d, t, true⟩],
           nextSlotId := s.nextSlotId + 1 }

/-- Method `Database.close_day`: `UPDATE slots SET is_available = 0 WHERE date = ?`. -/
def close_day (s : DBState) (d : String) : DBState :=
  { s with slots := s.slots.map (fun sl =>
      if sl.date == d then { sl with is_available := false } else sl) }

/-- The active-booking check of `Database.book_slot`:
`SELECT b.id FROM bookings b JOIN users u ON u.id = b.user_id
WHERE u.tg_id = ? AND b.status = 'active'` has a row. -/
def clientHasActiveBooking (s : DBState) (tg : Nat) : Bool :=
  s.bookings.any (fun b => b.status == "active" &&
    s.users.any (fun u => u.id == b.user_id && u.tg_id == tg))

/-- Method `Database.get_slot`: `SELECT ... FROM slots WHERE id = ?` (first row). -/
def get_slot (s : DBState) (sid : Nat) : Option Slot :=
  s.slots.find? (fun sl => sl.id == sid)

/-- The slot check of `Database.book_slot`: the `SELECT is_available`
row exists and is not 0. -/
def slotIsFree (s : DBState) (sid : Nat) : Bool :=
  match get_slot s sid with
  | none => false
  | some sl => sl.is_available

/-- Statement `UPDATE slots SET is_available = ? WHERE id = ?`. -/
def setSlotAvail (slots : List Slot) (sid : Nat) (v : Bool) : List Slot :=
  slots.map (fun sl => if sl.id == sid then { sl with is_available := v } else sl)

/-- The write phase of `Database.book_slot`: flip the slot to
unavailable and insert the new active booking, then commit. -/
def bookSlotApply (s : DBState) (uid sid : Nat) (now : Int) : DBState :=
  { s with slots := setSlotAvail s.slots sid false,
           bookings := s.bookings ++ [⟨s.nextBookingId, uid, sid, "active", now⟩],
           nextBookingId := s.nextBookingId + 1 }

/-- The final `SELECT id FROM bookings WHERE user_id = ? AND slot_id = ?
AND status = 'active'` of `Database.book_slot` (first row). -/
def findActiveBookingId (s : DBState) (uid sid : Nat) : Option Nat :=
  (s.bookings.find? (fun b =>
    b.user_id == uid && b.slot_id == sid && b.status == "active")).map (·.id)

/-- Method `Database.book_slot`: return `None` if the client already has an
active booking; otherwise resolve (or create) the user row, return
`None` if the slot is missing or taken, and otherwise take the slot,
insert the active booking and return its id. -/
def book_slot (s : DBState) (tg sid : Nat) (now : Int) : Option Nat × DBState :=
  if clientHasActiveBooking s tg then (none, s)
  else
    let r := get_or_create_user s tg
    if slotIsFree r.2 sid then
      let s₂ := bookSlotApply r.2 r.1 sid now
      (findActiveBookingId s₂ r.1 sid, s₂)
    else (none, r.2)

/-- Method `Database.cancel_booking`: if no active booking with this id exists,
return `None` leaving the store unchanged; otherwise set the booking
cancelled, reopen its slot and return the slot's `(date, time)`. -/
def cancel_booking (s : DBState) (bid : Nat) : Option (String × String) × DBState :=
  match s.bookings.find? (fun b => b.id == bid && b.status == "active") with
  | none => (none, s)
  | some b =>
      ((get_slot
          { s with
            bookings := s.bookings.map (fun b2 =>
              if b2.id == bid then { b2 with status := "cancelled" } else b2),
            slots := setSlotAvail s.slots b.slot_id true } b.slot_id).map
        (fun sl => (sl.date, sl.time)),
       { s with
         bookings := s.bookings.map (fun b2 =>
           if b2.id == bid then { b2 with status := "cancelled" } else b2),
         slots := setSlotAvail s.slots b.slot_id true })

/-- Method `Database.save_reminder`: `INSERT OR REPLACE INTO reminders`
keyed by the UNIQUE `booking_id`. -/
def save_reminder (s : DBState) (bid : Nat) (runAt : Int) (jobId : String) : DBState :=
  { s with reminders :=
      (s.reminders.filter (fun r => r.booking_id != bid)) ++ [⟨bid, runAt, jobId⟩] }

/-- Method `Database.delete_reminder`: drop the reminder row for this booking,
returning its job id. -/
def delete_reminder (s : DBState) (bid : Nat) : Option String × DBState :=
  match s.reminders.find? (fun r => r.booking_id == bid) with
  | none => (none, s)
  | some r =>
      (some r.job_id,
       { s with reminders := s.reminders.filter (fun r2 => r2.booking_id != bid) })

/-- A row of the `Database.get_all_reminders` join. -/
structure ReminderRow where
  booking_id : Nat
  run_at : Int
  status : String
  tg_id : Nat
  date : String
  time : String
deriving Repr, DecidableEq

/-- Method `Database.get_all_reminders`: reminders joined with their booking,
user and slot. -/
def get_all_reminders (s : DBState) : List ReminderRow :=
  s.reminders.filterMap (fun r =>
    match s.bookings.find? (fun b => b.id == r.booking_id) with
    | none => none
    | some b =>
        match s.users.find? (fun u => u.id == b.user_id) with
        | none => none
        | some u =>
            match s.slots.find? (fun sl => sl.id == b.slot_id) with
            | none => none
            | some sl => some ⟨r.booking_id, r.run_at, b.status, u.tg_id, sl.date, sl.time⟩)

/-! ### Date and time parsing

`datetime.strptime` with the formats `%H:%M`, `%Y-%m-%d` and
`%Y-%m-%d %H:%M`: each field is one to the maximal number of digits, and
out-of-range fields raise `ValueError` (modelled as `none`).  Parsed
datetimes are linearised to minutes on a civil-calendar timeline. -/

/-- Value of a decimal digit character, `none` for non-digits. -/
def digitVal (c : Char) : Option Nat :=
  if c.isDigit then some (c.toNat - 48) else none

/-- Read a nonempty all-digit character list as a number. -/
def parseDigits (cs : List Char) : Option Nat :=
  match cs with
  | [] => none
  | _ => cs.foldl (fun acc c =>
      match acc, digitVal c with
      | some n, some d => some (n * 10 + d)
      | _, _ => none) (some 0)

/-- Split a character list on a separator character (the semantics of
`str.split(sep)` for a one-character separator). -/
def splitOnChar (c : Char) (cs : List Char) : List (List Char) :=
  match cs with
  | [] => [[]]
  | a :: rest =>
      match splitOnChar c rest with
      | [] => if a == c then [[], []] else [[a]]
      | g :: gs => if a == c then [] :: g :: gs else (a :: g) :: gs

/-- A field of at most `w` digits (at least one). -/
def parseField (w : Nat) (cs : List Char) : Option Nat :=
  if cs.length == 0 || w < cs.length then none else parseDigits cs

/-- Call `datetime.strptime(p, "%H:%M")`: hour 0-23, minute 0-59. -/
def parseTimeHM (str : String) : Option (Nat × Nat) :=
  match splitOnChar ':' str.toList with
  | [h, m] =>
      match parseField 2 h, parseField 2 m with
      | some hh, some mm => if hh ≤ 23 && mm ≤ 59 then some (hh, mm) else none
      | _, _ => none
  | _ => none

/-- Call `datetime.strptime(d, "%Y-%m-%d")`, month 1-12, day 1-31. -/
def parseDateISO (str : String) : Option (Nat × Nat × Nat) :=
  match splitOnChar '-' str.toList with
  | [y, m, d] =>
      match parseField 4 y, parseField 2 m, parseField 2 d with
      | some yy, some mm, some dd =>
          if 1 ≤ mm && mm ≤ 12 && 1 ≤ dd && dd ≤ 31 then some (yy, mm, dd) else none
      | _, _, _ => none
  | _ => none

/-- Days of a civil calendar date on a linear day count (Hinnant's
`days_from_civil`, valid for the years this bot handles). -/
def daysFromCivil (y m d : Nat) : Nat :=
  let y' := if m ≤ 2 then y - 1 else y
  let era := y' / 400
  let yoe := y' % 400
  let mp := (m + 9) % 12
  let doy := (153 * mp + 2) / 5 + d - 1
  let doe := yoe * 365 + yoe / 4 - yoe / 100 + doy
  era * 146097 + doe

/-- A civil date and time as minutes on the linear timeline. -/
def dtMinutes (y m d hh mm : Nat) : Int :=
  (daysFromCivil y m d : Int) * 1440 + hh * 60 + mm

/-- Call `datetime.strptime` on the joined date and time strings,
linearised to minutes. -/
def parseDateTimeMin (dateStr timeStr : String) : Option Int :=
  match parseDateISO dateStr, parseTimeHM timeStr with
  | some (y, m, d), some (hh, mm) => some (dtMinutes y m d hh mm)
  | _, _ => none

/-! ### The APScheduler job set and the reminder bridge -/

/-- A live one-shot job of the in-memory scheduler. -/
structure Job where
  id : String
  run_at : Int
deriving Repr, DecidableEq

/-- Call `scheduler.add_job(..., id, run_date, replace_existing=True)`. -/
def addJob (jobs : List Job) (jid : String) (runAt : Int) : List Job :=
  (jobs.filter (fun j => j.id != jid)) ++ [⟨jid, runAt⟩]

/-- The deterministic job id `f"reminder_{booking_id}"`. -/
def mkJid (bid : Nat) : String := "reminder_" ++ toString bid

/-- Function `handlers.schedule_reminder`: parse the slot datetime (a parse
failure raises, modelled as `none`), compute `run_at` 24 hours (1440
minutes) earlier; if `run_at <= now` do nothing, otherwise register the
job and persist the reminder row. -/
def schedule_reminder (s : DBState) (jobs : List Job) (bid : Nat)
    (dateStr timeStr : String) (now : Int) : Option (DBState × List Job) :=
  match parseDateTimeMin dateStr timeStr with
  | none => none
  | some dtSlot =>
      let runAt := dtSlot - 1440
      if runAt ≤ now then some (s, jobs)
      else some (save_reminder s bid runAt (mkJid bid), addJob jobs (mkJid bid) runAt)

/-- One iteration of the `bot.restore_reminders` loop: stale or orphaned
rows are deleted, live ones re-scheduled. -/
def restoreStep (now : Int) (acc : Option (DBState × List Job)) (r : ReminderRow) :
    Option (DBState × List Job) :=
  match acc with
  | none => none
  | some (s, jobs) =>
      if r.status != "active" || r.run_at ≤ now then
        some ((delete_reminder s r.booking_id).2, jobs)
      else
        schedule_reminder s jobs r.booking_id r.date r.time now

/-- Function `bot.restore_reminders`: fold the loop over the joined reminder rows,
starting from the freshly created (empty) scheduler. -/
def restore_reminders (s : DBState) (now : Int) : Option (DBState × List Job) :=
  (get_all_reminders s).foldl (restoreStep now) (some (s, []))

/-! ### Handler-level flows -/

/-- Call `time.strftime("%H:%M")`: zero-padded rendering of a parsed time. -/
def formatHM (hh mm : Nat) : String :=
  (if hh < 10 then "0" ++ toString hh else toString hh) ++ ":" ++
    (if mm < 10 then "0" ++ toString mm else toString mm)

/-- The input split of `handlers.admin_add_times`: strip spaces, split on
commas, drop empty pieces. -/
def splitTimesInput (text : String) : List String :=
  ((splitOnChar ',' (text.toList.filter (fun c => c != ' '))).map
    (fun g => String.mk g)).filter (fun p => p != "")

/-- One iteration of the slot-creation loop of
`handlers.admin_add_times`: a piece that parses as `%H:%M` creates one
slot and bumps the count, a parse failure is skipped. -/
def addTimesStep (dateStr : String) (acc : DBState × Nat) (p : String) :
    DBState × Nat :=
  match parseTimeHM p with
  | none => acc
  | some (hh, mm) => (create_slot acc.1 dateStr (formatHM hh mm), acc.2 + 1)

/-- The slot-creation loop of `handlers.admin_add_times`: each piece that
parses as `%H:%M` creates one slot, parse failures are skipped; the count
of created slots is returned. -/
def admin_add_times (s : DBState) (dateStr : String) (parts : List String) :
    DBState × Nat :=
  parts.foldl (addTimesStep dateStr) (s, 0)

/-- The outcome `handlers.confirm_booking` reports to the user. -/
inductive ConfirmOutcome where
  | success (bookingId : Nat) (dateStr timeStr : String)
  | failureMsg (msg : String)
deriving Repr, DecidableEq

/-- The single combined failure text of `handlers.confirm_booking` shown
when `book_slot` returns `None`, whatever the cause. -/
def bookFailText : String :=
  "Не удалось создать запись. Возможно, у вас уже есть активная запись или слот был только что занят."

/-- The failure text shown when the slot row is gone after booking. -/
def slotGoneText : String :=
  "Не удалось найти слот после бронирования. Свяжитесь, пожалуйста, с мастером."

/-- The database-and-scheduler effect of `handlers.confirm_booking` once
a slot id is chosen: save the entered contact info, try to book, and on
success schedule the reminder (the notification sends are best-effort
chat traffic with no effect on the store). -/
def confirm_booking (s : DBState) (jobs : List Job) (tg sid : Nat)
    (name phone : String) (now : Int) :
    Option (ConfirmOutcome × DBState × List Job) :=
  match book_slot (update_user_info s tg name phone) tg sid now with
  | (none, s₂) => some (.failureMsg bookFailText, s₂, jobs)
  | (some bid, s₂) =>
      match get_slot s₂ sid with
      | none => some (.failureMsg slotGoneText, s₂, jobs)
      | some sl =>
          match schedule_reminder s₂ jobs bid sl.date sl.time now with
          | none => none
          | some (s₃, jobs') => some (.success bid sl.date sl.time, s₃, jobs')

/-- The database-and-scheduler effect of `handlers.user_cancel_booking`:
drop the reminder row, best-effort remove its live job, then cancel the
booking. -/
def user_cancel_booking (s : DBState) (jobs : List Job) (bid : Nat) :
    Option (String × String) × DBState × List Job :=
  let r := delete_reminder s bid
  let jobs₁ :=
    match r.1 with
    | some jid => jobs.filter (fun j => j.id != jid)
    | none => jobs
  let c := cancel_booking r.2 bid
  (c.1, c.2, jobs₁)

/-! ### Reachable states of the durable store

Claims C1 and C2 quantify over states produced by any sequence of the
four operations `create_slot`, `close_day`, `book_slot` and
`cancel_booking`, starting from the freshly initialised database. -/

/-- States of the durable store reachable through the four booking
operations. -/
inductive Reachable : DBState → Prop where
  | init : Reachable dbInit
  | step_create_slot {s} (d t : String) : Reachable s → Reachable (create_slot s d t)
  | step_close_day {s} (d : String) : Reachable s → Reachable (close_day s d)
  | step_book_slot {s} (tg sid : Nat) (now : Int) :
      Reachable s → Reachable (book_slot s tg sid now).2
  | step_cancel_booking {s} (bid : Nat) :
      Reachable s → Reachable (cancel_booking s bid).2

/-- Holds when some active booking references this slot. -/
def slotHasActiveBooking (s : DBState) (sid : Nat) : Bool :=
  s.bookings.any (fun b => b.status == "active" && b.slot_id == sid)

/-- The inductive invariant of the durable store maintained by the four
booking operations: row ids are fresh and unique, Telegram ids are
unique, bookings reference existing users, every active booking's slot
exists and is unavailable, and two distinct active bookings never share
a slot or a user. -/
structure Inv (s : DBState) : Prop where
  slot_lt : ∀ sl ∈ s.slots, sl.id < s.nextSlotId
  slot_nodup : (s.slots.map Slot.id).Nodup
  user_lt : ∀ u ∈ s.users, u.id < s.nextUserId
  user_nodup : (s.users.map User.id).Nodup
  tg_nodup : (s.users.map User.tg_id).Nodup
  bk_lt : ∀ b ∈ s.bookings, b.id < s.nextBookingId
  bk_nodup : (s.bookings.map Booking.id).Nodup
  bk_user : ∀ b ∈ s.bookings, ∃ u ∈ s.users, u.id = b.user_id
  act_slot : ∀ b ∈ s.bookings, b.status = "active" →
      ∃ sl ∈ s.slots, sl.id = b.slot_id ∧ sl.is_available = false
  act_pair : s.bookings.Pairwise (fun b₁ b₂ =>
      b₁.status = "active" → b₂.status = "active" →
      b₁.slot_id ≠ b₂.slot_id ∧ b₁.user_id ≠ b₂.user_id)

theorem inv_dbInit : Inv dbInit := by
  constructor <;> simp [dbInit]

theorem setSlotAvail_map_id (L : List Slot) (sid : Nat) (v : Bool) :
    (setSlotAvail L sid v).map Slot.id = L.map Slot.id := by
  unfold setSlotAvail
  rw [List.map_map]
  apply List.map_congr_left
  intro sl _
  by_cases h : sl.id = sid <;> simp [h]

theorem inv_create_slot {s : DBState} (h : Inv s) (d t : String) :
    Inv (create_slot s d t) := by
  obtain ⟨h1, h2, h3, h4, h5, h6, h7, h8, h9, h10⟩ := h
  refine ⟨?_, ?_, h3, h4, h5, h6, h7, ?_, ?_, h10⟩
  · intro sl hsl
    simp only [create_slot, List.mem_append, List.mem_singleton] at hsl
    rcases hsl with hsl | rfl
    · exact Nat.lt_succ_of_lt (h1 sl hsl)
    · exact Nat.lt_succ_self _
  · simp only [create_slot, List.map_append, List.map_cons, List.map_nil]
    rw [List.nodup_append]
    refine ⟨h2, List.nodup_singleton _, ?_⟩
    intro x hx
    simp only [List.mem_map] at hx
    obtain ⟨sl, hsl, rfl⟩ := hx
    simp only [List.mem_singleton]
    exact fun hc => absurd hc (Nat.ne_of_lt (h1 sl hsl))
  · intro b hb
    obtain ⟨u, hu, he⟩ := h8 b hb
    exact ⟨u, hu, he⟩
  · intro b hb hact
    obtain ⟨sl, hsl, he, hav⟩ := h9 b hb hact
    exact ⟨sl, List.mem_append_left _ hsl, he, hav⟩

theorem inv_close_day {s : DBState} (h : Inv s) (d : String) :
    Inv (close_day s d) := by
  obtain ⟨h1, h2, h3, h4, h5, h6, h7, h8, h9, h10⟩ := h
  refine ⟨?_, ?_, h3, h4, h5, h6, h7, h8, ?_, h10⟩
  · intro sl hsl
    simp only [close_day, List.mem_map] at hsl
    obtain ⟨sl0, hsl0, rfl⟩ := hsl
    have := h1 sl0 hsl0
    simp only [close_day]
    by_cases hc : sl0.date = d <;> simp [hc, this]
  · show ((s.slots.map fun sl =>
      if sl.date == d then { sl with is_available := false } else sl).map Slot.id).Nodup
    rw [List.map_map]
    have : (s.slots.map fun sl => Slot.id
        (if sl.date == d then { sl with is_available := false } else sl)) =
        s.slots.map Slot.id := by
      apply List.map_congr_left
      intro sl _
      by_cases hc : sl.date == d <;> simp [hc]
    rw [Function.comp_def, this]
    exact h2
  · intro b hb hact
    obtain ⟨sl, hsl, he, hav⟩ := h9 b hb hact
    refine ⟨if sl.date == d then { sl with is_available := false } else sl,
      List.mem_map_of_mem _ hsl, ?_, ?_⟩
    · by_cases hc : sl.date == d <;> simp [hc, he]
    · by_cases hc : sl.date == d <;> simp [hc, hav]

theorem gocu_slots (s : DBState) (tg : Nat) :
    (get_or_create_user s tg).2.slots = s.slots := by
  unfold get_or_create_user
  cases findUserByTg s tg <;> rfl

theorem gocu_bookings (s : DBState) (tg : Nat) :
    (get_or_create_user s tg).2.bookings = s.bookings := by
  unfold get_or_create_user
  cases findUserByTg s tg <;> rfl

theorem gocu_reminders (s : DBState) (tg : Nat) :
    (get_or_create_user s tg).2.reminders = s.reminders := by
  unfold get_or_create_user
  cases findUserByTg s tg <;> rfl

theorem gocu_nextSlotId (s : DBState) (tg : Nat) :
    (get_or_create_user s tg).2.nextSlotId = s.nextSlotId := by
  unfold get_or_create_user
  cases findUserByTg s tg <;> rfl

theorem gocu_nextBookingId (s : DBState) (tg : Nat) :
    (get_or_create_user s tg).2.nextBookingId = s.nextBookingId := by
  unfold get_or_create_user
  cases findUserByTg s tg <;> rfl

theorem gocu_users_mono (s : DBState) (tg : Nat) :
    ∀ u ∈ s.users, u ∈ (get_or_create_user s tg).2.users := by
  intro u hu
  unfold get_or_create_user
  cases findUserByTg s tg with
  | none => exact List.mem_append_left _ hu
  | some _ => exact hu

theorem gocu_uid_mem (s : DBState) (tg : Nat) :
    ∃ u ∈ (get_or_create_user s tg).2.users,
      u.id = (get_or_create_user s tg).1 ∧ u.tg_id = tg := by
  cases hf : findUserByTg s tg with
  | none =>
      simp only [get_or_create_user, hf]
      refine ⟨⟨s.nextUserId, tg, none, none⟩, ?_, rfl, rfl⟩
      simp
  | some u =>
      simp only [get_or_create_user, hf]
      rw [findUserByTg] at hf
      refine ⟨u, List.mem_of_find?_eq_some hf, rfl, ?_⟩
      have := List.find?_some hf
      simpa [beq_iff_eq] using this

theorem inv_gocu {s : DBState} (h : Inv s) (tg : Nat) :
    Inv (get_or_create_user s tg).2 := by
  obtain ⟨h1, h2, h3, h4, h5, h6, h7, h8, h9, h10⟩ := h
  cases hf : findUserByTg s tg with
  | some u =>
      simp only [get_or_create_user, hf]
      exact ⟨h1, h2, h3, h4, h5, h6, h7, h8, h9, h10⟩
  | none =>
      simp only [get_or_create_user, hf]
      refine ⟨h1, h2, ?_, ?_, ?_, h6, h7, ?_, h9, h10⟩
      · intro u hu
        simp only [List.mem_append, List.mem_singleton] at hu
        rcases hu with hu | rfl
        · exact Nat.lt_succ_of_lt (h3 u hu)
        · exact Nat.lt_succ_self _
      · simp only [List.map_append, List.map_cons, List.map_nil]
        rw [List.nodup_append]
        refine ⟨h4, List.nodup_singleton _, ?_⟩
        intro x hx
        simp only [List.mem_map] at hx
        obtain ⟨u, hu, rfl⟩ := hx
        simp only [List.mem_singleton]
        exact fun hc => absurd hc (Nat.ne_of_lt (h3 u hu))
      · simp only [List.map_append, List.map_cons, List.map_nil]
        rw [List.nodup_append]
        refine ⟨h5, List.nodup_singleton _, ?_⟩
        intro x hx
        simp only [List.mem_map] at hx
        obtain ⟨u, hu, rfl⟩ := hx
        simp only [List.mem_singleton]
        rw [findUserByTg, List.find?_eq_none] at hf
        have := hf u hu
        simpa [beq_iff_eq] using this
      · intro b hb
        obtain ⟨u, hu, he⟩ := h8 b hb
        exact ⟨u, List.mem_append_left _ hu, he⟩

theorem clientHasActive_eq_false {s : DBState} {tg : Nat}
    (h : clientHasActiveBooking s tg = false) :
    ∀ b ∈ s.bookings, b.status = "active" →
      ∀ u ∈ s.users, u.id = b.user_id → u.tg_id ≠ tg := by
  intro b hb hact u hu he htg
  rw [clientHasActiveBooking, List.any_eq_false] at h
  have hB := h b hb
  simp only [Bool.and_eq_true, beq_iff_eq, List.any_eq_true, not_and, not_exists] at hB
  exact (hB hact) u hu he htg

theorem no_active_for_uid {s : DBState} {tg : Nat} (hInv : Inv s)
    (hno : clientHasActiveBooking s tg = false) :
    ∀ b ∈ s.bookings, b.status = "active" →
      b.user_id ≠ (get_or_create_user s tg).1 := by
  intro b hb hact
  cases hf : findUserByTg s tg with
  | some u =>
      simp only [get_or_create_user, hf]
      intro he
      rw [findUserByTg] at hf
      have hm : u ∈ s.users := List.mem_of_find?_eq_some hf
      have htg : u.tg_id = tg := by
        have := List.find?_some hf
        simpa [beq_iff_eq] using this
      exact clientHasActive_eq_false hno b hb hact u hm he.symm htg
  | none =>
      simp only [get_or_create_user, hf]
      obtain ⟨u, hu, he⟩ := hInv.bk_user b hb
      intro hc
      rw [← he] at hc
      exact absurd hc (Nat.ne_of_lt (hInv.user_lt u hu))

theorem slotIsFree_iff {s : DBState} {sid : Nat} :
    slotIsFree s sid = true ↔
      ∃ sl, get_slot s sid = some sl ∧ sl.is_available = true := by
  unfold slotIsFree
  cases h : get_slot s sid <;> simp

theorem get_slot_mem {s : DBState} {sid : Nat} {sl : Slot}
    (h : get_slot s sid = some sl) : sl ∈ s.slots ∧ sl.id = sid := by
  rw [get_slot] at h
  refine ⟨List.mem_of_find?_eq_some h, ?_⟩
  have := List.find?_some h
  simpa [beq_iff_eq] using this

theorem inv_bookSlotApply {s : DBState} (h : Inv s) (tg sid : Nat) (now : Int)
    (hno : clientHasActiveBooking s tg = false)
    (hfree : slotIsFree (get_or_create_user s tg).2 sid = true) :
    Inv (bookSlotApply (get_or_create_user s tg).2 (get_or_create_user s tg).1 sid now) := by
  obtain ⟨g1, g2, g3, g4, g5, g6, g7, g8, g9, g10⟩ := inv_gocu h tg
  obtain ⟨sl, hsl, hav⟩ := slotIsFree_iff.mp hfree
  obtain ⟨hslm, hslid⟩ := get_slot_mem hsl
  refine ⟨?_, ?_, g3, g4, g5, ?_, ?_, ?_, ?_, ?_⟩
  · intro x hx
    simp only [bookSlotApply, setSlotAvail, List.mem_map] at hx
    obtain ⟨sl0, hsl0, rfl⟩ := hx
    have := g1 sl0 hsl0
    simp only [bookSlotApply]
    by_cases hc : sl0.id = sid <;> simp [hc] <;> omega
  · show ((setSlotAvail _ sid false).map Slot.id).Nodup
    rw [setSlotAvail_map_id]
    exact g2
  · intro b hb
    simp only [bookSlotApply, List.mem_append, List.mem_singleton] at hb
    rcases hb with hb | rfl
    · exact Nat.lt_succ_of_lt (g6 b hb)
    · exact Nat.lt_succ_self _
  · simp only [bookSlotApply, List.map_append, List.map_cons, List.map_nil]
    rw [List.nodup_append]
    refine ⟨g7, List.nodup_singleton _, ?_⟩
    intro x hx
    simp only [List.mem_map] at hx
    obtain ⟨b, hb, rfl⟩ := hx
    simp only [List.mem_singleton]
    exact fun hc => absurd hc (Nat.ne_of_lt (g6 b hb))
  · intro b hb
    simp only [bookSlotApply, List.mem_append, List.mem_singleton] at hb
    rcases hb with hb | rfl
    · exact g8 b hb
    · obtain ⟨u, hu, hid, _⟩ := gocu_uid_mem s tg
      exact ⟨u, hu, hid⟩
  · intro b hb hact
    simp only [bookSlotApply, List.mem_append, List.mem_singleton] at hb
    rcases hb with hb | rfl
    · obtain ⟨sl', hsl', hid', hav'⟩ := g9 b hb hact
      refine ⟨if sl'.id == sid then { sl' with is_available := false } else sl',
        List.mem_map_of_mem _ hsl', ?_, ?_⟩
      · by_cases hc : sl'.id = sid <;> simp [hc] <;> omega
      · by_cases hc : sl'.id = sid <;> simp [hc, hav']
    · refine ⟨{ sl with is_available := false }, ?_, hslid, rfl⟩
      have : (if sl.id == sid then { sl with is_available := false } else sl) =
          { sl with is_available := false } := by
        simp [hslid]
      rw [← this]
      exact List.mem_map_of_mem _ hslm
  · simp only [bookSlotApply]
    rw [List.pairwise_append]
    refine ⟨g10, List.pairwise_singleton _ _, ?_⟩
    intro a ha b hb
    simp only [List.mem_singleton] at hb
    subst hb
    intro hacta _
    constructor
    · intro hceq
      have hceq' : a.slot_id = sid := hceq
      have hbk : a ∈ s.bookings := by rwa [gocu_bookings] at ha
      have h9 := h.act_slot a hbk hacta
      obtain ⟨sl', hsl', hid', hav'⟩ := h9
      have hslm' : sl ∈ s.slots := by rwa [gocu_slots] at hslm
      have : sl' = sl := by
        apply List.inj_on_of_nodup_map h.slot_nodup hsl' hslm'
        show sl'.id = sl.id
        omega
      rw [this, hav] at hav'
      exact absurd hav' (by simp)
    · have hbk : a ∈ s.bookings := by rwa [gocu_bookings] at ha
      exact no_active_for_uid h hno a hbk hacta

theorem inv_book_slot {s : DBState} (h : Inv s) (tg sid : Nat) (now : Int) :
    Inv (book_slot s tg sid now).2 := by
  by_cases hc : clientHasActiveBooking s tg = true
  · simp only [book_slot, hc, if_true]
    exact h
  · rw [Bool.not_eq_true] at hc
    by_cases hfree : slotIsFree (get_or_create_user s tg).2 sid = true
    · simp only [book_slot, hc, Bool.false_eq_true, if_false, hfree, if_true]
      exact inv_bookSlotApply h tg sid now hc hfree
    · rw [Bool.not_eq_true] at hfree
      simp only [book_slot, hc, Bool.false_eq_true, if_false, hfree]
      exact inv_gocu h tg

theorem inv_cancel_booking {s : DBState} (h : Inv s) (bid : Nat) :
    Inv (cancel_booking s bid).2 := by
  cases hf : s.bookings.find? (fun b => b.id == bid && b.status == "active") with
  | none =>
      simp only [cancel_booking, hf]
      exact h
  | some b =>
      have hbm : b ∈ s.bookings := List.mem_of_find?_eq_some hf
      have hprop := List.find?_some hf
      simp only [Bool.and_eq_true, beq_iff_eq] at hprop
      obtain ⟨hbid, hbact⟩ := hprop
      obtain ⟨h1, h2, h3, h4, h5, h6, h7, h8, h9, h10⟩ := h
      have hres : (cancel_booking s bid).2 =
          { s with
            bookings := s.bookings.map (fun b2 =>
              if b2.id == bid then { b2 with status := "cancelled" } else b2),
            slots := setSlotAvail s.slots b.slot_id true } := by
        unfold cancel_booking
        rw [hf]
      rw [hres]
      refine ⟨?_, ?_, h3, h4, h5, ?_, ?_, ?_, ?_, ?_⟩
      · intro sl hsl
        simp only [setSlotAvail, List.mem_map] at hsl
        obtain ⟨sl0, hsl0, rfl⟩ := hsl
        have := h1 sl0 hsl0
        by_cases hcq : sl0.id = b.slot_id <;> simp [hcq] <;> omega
      · show ((setSlotAvail _ _ true).map Slot.id).Nodup
        rw [setSlotAvail_map_id]
        exact h2
      · intro b2 hb2
        simp only [List.mem_map] at hb2
        obtain ⟨b0, hb0, rfl⟩ := hb2
        have := h6 b0 hb0
        by_cases hcq : b0.id = bid <;> simp [hcq] <;> omega
      · show ((s.bookings.map _).map Booking.id).Nodup
        rw [List.map_map]
        have : (s.bookings.map fun b2 => Booking.id
            (if b2.id == bid then { b2 with status := "cancelled" } else b2)) =
            s.bookings.map Booking.id := by
          apply List.map_congr_left
          intro b2 _
          by_cases hcq : b2.id = bid <;> simp [hcq]
        rw [Function.comp_def, this]
        exact h7
      · intro b2 hb2
        simp only [List.mem_map] at hb2
        obtain ⟨b0, hb0, rfl⟩ := hb2
        obtain ⟨u, hu, he⟩ := h8 b0 hb0
        refine ⟨u, hu, ?_⟩
        by_cases hcq : b0.id = bid <;> simp [hcq, he]
      · intro b2 hb2 hact2
        simp only [List.mem_map] at hb2
        obtain ⟨b0, hb0, rfl⟩ := hb2
        by_cases hcq : b0.id = bid
        · simp only [hcq, beq_self_eq_true, if_true] at hact2
          exact absurd hact2 (by simp)
        · have hne : (b0.id == bid) = false := by simp [hcq]
          simp only [hne, Bool.false_eq_true, if_false] at hact2 ⊢
          obtain ⟨sl', hsl', hid', hav'⟩ := h9 b0 hb0 hact2
          have hb0ne : b0 ≠ b := fun hq => hcq (hq ▸ hbid)
          have hsymm : Symmetric (fun b₁ b₂ : Booking =>
              b₁.status = "active" → b₂.status = "active" →
              b₁.slot_id ≠ b₂.slot_id ∧ b₁.user_id ≠ b₂.user_id) := by
            intro x y hxy hy2 hx2
            exact ⟨((hxy hx2 hy2).1).symm, ((hxy hx2 hy2).2).symm⟩
          have hR := h10.forall hsymm hb0 hbm hb0ne
          have hslot_ne : b0.slot_id ≠ b.slot_id := (hR hact2 hbact).1
          have hq : sl'.id ≠ b.slot_id := fun hh => hslot_ne (hid' ▸ hh)
          have hqb : (sl'.id == b.slot_id) = false := by simp [hq]
          refine ⟨if sl'.id == b.slot_id then { sl' with is_available := true } else sl',
            List.mem_map_of_mem _ hsl', ?_, ?_⟩
          · simp only [hqb, Bool.false_eq_true, if_false]
            exact hid'
          · simp only [hqb, Bool.false_eq_true, if_false]
            exact hav'
      · refine List.Pairwise.map _ ?_ h10
        intro a c hac ha2 hc2
        have ha' : a.status = "active" := by
          by_cases hq : a.id = bid
          · simp only [hq, beq_self_eq_true, if_true] at ha2
            exact absurd ha2 (by simp)
          · simpa [hq] using ha2
        have hc' : c.status = "active" := by
          by_cases hq : c.id = bid
          · simp only [hq, beq_self_eq_true, if_true] at hc2
            exact absurd hc2 (by simp)
          · simpa [hq] using hc2
        obtain ⟨hs, hu⟩ := hac ha' hc'
        constructor
        · by_cases hq : a.id = bid <;> by_cases hq2 : c.id = bid <;>
            simp [hq, hq2, hs]
        · by_cases hq : a.id = bid <;> by_cases hq2 : c.id = bid <;>
            simp [hq, hq2, hu]

theorem reachable_inv {s : DBState} (h : Reachable s) : Inv s := by
  induction h with
  | init => exact inv_dbInit
  | step_create_slot d t _ ih => exact inv_create_slot ih d t
  | step_close_day d _ ih => exact inv_close_day ih d
  | step_book_slot tg sid now _ ih => exact inv_book_slot ih tg sid now
  | step_cancel_booking bid _ ih => exact inv_cancel_booking ih bid

/-! ### Claim C1 -/

/-- A slot created and then closed by `close_day`: unavailable, yet no
active booking references it. -/
def c1State : DBState := close_day (create_slot dbInit "2025-06-10" "14:00") "2025-06-10"

/-- Claim C1, as stated, is false: after `create_slot` followed by
`close_day`, the slot's `is_available` flag is `false` although no
active booking references it, so the flag is not the negation of "some
active reservation references this slot". -/
theorem C1_counterexample :
    ¬ ∀ s : DBState, Reachable s → ∀ sl ∈ s.slots,
        sl.is_available = !(slotHasActiveBooking s sl.id) := by
  intro hall
  have hre : Reachable c1State :=
    Reachable.step_close_day _ (Reachable.step_create_slot _ _ Reachable.init)
  have := hall c1State hre ⟨1, "2025-06-10", "14:00", false⟩ (by decide)
  exact absurd this (by decide)

/-- Claim C1 (amended): at every reachable state, an `available` slot is
referenced by no active reservation (equivalently, a slot referenced by
an active reservation is unavailable); the converse direction fails
because `close_day` marks slots unavailable without any reservation. -/
theorem C1_available_slot_has_no_active_booking
    (s : DBState) (hre : Reachable s) :
    ∀ sl ∈ s.slots, sl.is_available = true →
      slotHasActiveBooking s sl.id = false := by
  intro sl hsl hav
  have hInv := reachable_inv hre
  rw [slotHasActiveBooking, List.any_eq_false]
  intro b hb
  simp only [Bool.and_eq_true, beq_iff_eq, not_and]
  intro hact hslot
  obtain ⟨sl', hsl', hid', hav'⟩ := hInv.act_slot b hb hact
  have heq : sl' = sl := by
    apply List.inj_on_of_nodup_map hInv.slot_nodup hsl' hsl
    show sl'.id = sl.id
    omega
  rw [heq, hav] at hav'
  exact absurd hav' (by simp)

theorem C1_witness :
    slotHasActiveBooking (create_slot dbInit "2025-06-10" "14:00") 1 = false := by
  have h := C1_available_slot_has_no_active_booking
      (create_slot dbInit "2025-06-10" "14:00")
      (Reachable.step_create_slot _ _ Reachable.init)
  exact h ⟨1, "2025-06-10", "14:00", true⟩ (by decide) rfl

/-! ### Claim C2 -/

/-- The active reservations of the client with this Telegram id. -/
def activeBookingsOf (s : DBState) (tg : Nat) : List Booking :=
  s.bookings.filter (fun b => b.status == "active" &&
    s.users.any (fun u => u.id == b.user_id && u.tg_id == tg))

/-- Claim C2: at every reachable state, a client holds at most one
active reservation, and `book_slot` for a client who already has an
active reservation returns `None` and leaves the store unchanged. -/
theorem C2_at_most_one_active_per_client
    (s : DBState) (tg sid : Nat) (now : Int) (hre : Reachable s) :
    (activeBookingsOf s tg).length ≤ 1 ∧
    (clientHasActiveBooking s tg = true → book_slot s tg sid now = (none, s)) := by
  constructor
  · by_contra hlen
    push_neg at hlen
    have hInv := reachable_inv hre
    have hpw : (activeBookingsOf s tg).Pairwise (fun b₁ b₂ =>
        b₁.status = "active" → b₂.status = "active" →
        b₁.slot_id ≠ b₂.slot_id ∧ b₁.user_id ≠ b₂.user_id) :=
      hInv.act_pair.filter _
    cases hq : activeBookingsOf s tg with
    | nil => rw [hq] at hlen; simp at hlen
    | cons a tl =>
      cases tl with
      | nil => rw [hq] at hlen; simp at hlen
      | cons b rest =>
        rw [hq] at hpw
        have hRab := List.rel_of_pairwise_cons hpw (List.mem_cons_self _ _)
        have ha : a ∈ activeBookingsOf s tg := by
          rw [hq]; exact List.mem_cons_self _ _
        have hb : b ∈ activeBookingsOf s tg := by
          rw [hq]; simp
        rw [activeBookingsOf, List.mem_filter] at ha hb
        obtain ⟨ham, hap⟩ := ha
        obtain ⟨hbm, hbp⟩ := hb
        simp only [Bool.and_eq_true, beq_iff_eq, List.any_eq_true] at hap hbp
        obtain ⟨hact_a, ua, hua, huaid, huatg⟩ := hap
        obtain ⟨hact_b, ub, hub, hubid, hubtg⟩ := hbp
        have hne := (hRab hact_a hact_b).2
        have hu_eq : ua = ub := by
          apply List.inj_on_of_nodup_map hInv.tg_nodup hua hub
          show ua.tg_id = ub.tg_id
          rw [huatg, hubtg]
        apply hne
        rw [← huaid, ← hubid, hu_eq]
  · intro hc
    simp [book_slot, hc]

/-- A reachable state where client 100 holds an active reservation. -/
def c2State : DBState := (book_slot (create_slot dbInit "2025-06-10" "14:00") 100 1 0).2

theorem C2_witness :
    (activeBookingsOf c2State 100).length ≤ 1 ∧
    book_slot c2State 100 1 5 = (none, c2State) :=
  ⟨(C2_at_most_one_active_per_client c2State 100 1 5
      (Reachable.step_book_slot 100 1 0
        (Reachable.step_create_slot _ _ Reachable.init))).1,
   (C2_at_most_one_active_per_client c2State 100 1 5
      (Reachable.step_book_slot 100 1 0
        (Reachable.step_create_slot _ _ Reachable.init))).2 (by decide)⟩

/-! ### Claim C3 -/

theorem find?_setSlotAvail (L : List Slot) (sid : Nat) (v : Bool) :
    (setSlotAvail L sid v).find? (fun x => x.id == sid) =
      (L.find? (fun x => x.id == sid)).map
        (fun sl => if sl.id == sid then { sl with is_available := v } else sl) := by
  induction L with
  | nil => rfl
  | cons a L ih =>
      show ((if a.id == sid then { a with is_available := v } else a) ::
          setSlotAvail L sid v).find? (fun x => x.id == sid) = _
      by_cases hc : a.id = sid
      · rw [List.find?_cons_of_pos _ (by simp [hc]), List.find?_cons_of_pos _ (by simp [hc])]
        simp [hc]
      · rw [List.find?_cons_of_neg _ (by simp [hc]), List.find?_cons_of_neg _ (by simp [hc])]
        exact ih

theorem slotIsFree_eq {s : DBState} {sid : Nat} {sl : Slot}
    (h : get_slot s sid = some sl) : slotIsFree s sid = sl.is_available := by
  unfold slotIsFree
  rw [h]

theorem book_slot_none_of_active {s : DBState} {tg : Nat}
    (h : clientHasActiveBooking s tg = true) (sid : Nat) (now : Int) :
    book_slot s tg sid now = (none, s) := by
  simp [book_slot, h]

theorem book_slot_none_of_not_free {s : DBState} {tg sid : Nat}
    (h2 : clientHasActiveBooking s tg = false)
    (h : slotIsFree (get_or_create_user s tg).2 sid = false) (now : Int) :
    book_slot s tg sid now = (none, (get_or_create_user s tg).2) := by
  simp only [book_slot, h2, Bool.false_eq_true, if_false, h]

theorem book_slot_success (s : DBState) (tg sid : Nat) (now : Int) (sl : Slot)
    (hInv : Inv s)
    (hno : clientHasActiveBooking s tg = false)
    (hsl : get_slot s sid = some sl)
    (hav : sl.is_available = true) :
    (book_slot s tg sid now).1 = some s.nextBookingId ∧
    get_slot (book_slot s tg sid now).2 sid = some { sl with is_available := false } ∧
    (∃ uid, (book_slot s tg sid now).2.bookings =
        s.bookings ++ [⟨s.nextBookingId, uid, sid, "active", now⟩] ∧
      ∃ u ∈ (book_slot s tg sid now).2.users, u.id = uid ∧ u.tg_id = tg) ∧
    ∀ tg2 now2, (book_slot (book_slot s tg sid now).2 tg2 sid now2).1 = none := by
  have hsl1 : get_slot (get_or_create_user s tg).2 sid = some sl := by
    rw [get_slot, gocu_slots, ← get_slot]
    exact hsl
  have hfree : slotIsFree (get_or_create_user s tg).2 sid = true := by
    rw [slotIsFree_eq hsl1, hav]
  have hred : book_slot s tg sid now =
      (findActiveBookingId
        (bookSlotApply (get_or_create_user s tg).2 (get_or_create_user s tg).1 sid now)
        (get_or_create_user s tg).1 sid,
       bookSlotApply (get_or_create_user s tg).2 (get_or_create_user s tg).1 sid now) := by
    simp only [book_slot, hno, Bool.false_eq_true, if_false, hfree, if_true]
  have hsid : sl.id = sid := (get_slot_mem hsl).2
  have hfind : (book_slot s tg sid now).1 = some s.nextBookingId := by
    rw [hred]
    show findActiveBookingId _ _ _ = _
    rw [findActiveBookingId]
    show ((bookSlotApply _ _ sid now).bookings.find? _).map _ = _
    have hbk : (bookSlotApply (get_or_create_user s tg).2
        (get_or_create_user s tg).1 sid now).bookings =
        s.bookings ++ [⟨s.nextBookingId, (get_or_create_user s tg).1, sid, "active", now⟩] := by
      show (get_or_create_user s tg).2.bookings ++
          [⟨(get_or_create_user s tg).2.nextBookingId, _, sid, "active", now⟩] = _
      rw [gocu_bookings, gocu_nextBookingId]
    rw [hbk, List.find?_append]
    have hnone : s.bookings.find? (fun b =>
        b.user_id == (get_or_create_user s tg).1 && b.slot_id == sid &&
          b.status == "active") = none := by
      rw [List.find?_eq_none]
      intro b hb
      simp only [Bool.and_eq_true, beq_iff_eq, not_and]
      intro huid hact
      exact absurd huid.1 (no_active_for_uid hInv hno b hb hact)
    rw [hnone]
    simp
  refine ⟨hfind, ?_, ?_, ?_⟩
  · rw [hred]
    show get_slot (bookSlotApply _ _ sid now) sid = _
    rw [get_slot]
    show (setSlotAvail (get_or_create_user s tg).2.slots sid false).find? _ = _
    rw [gocu_slots, find?_setSlotAvail]
    rw [get_slot] at hsl
    rw [hsl]
    simp [hsid]
  · refine ⟨(get_or_create_user s tg).1, ?_, ?_⟩
    · rw [hred]
      show (get_or_create_user s tg).2.bookings ++
          [⟨(get_or_create_user s tg).2.nextBookingId, _, sid, "active", now⟩] = _
      rw [gocu_bookings, gocu_nextBookingId]
    · obtain ⟨u, hu, hid, htg⟩ := gocu_uid_mem s tg
      refine ⟨u, ?_, hid, htg⟩
      rw [hred]
      exact hu
  · intro tg2 now2
    by_cases hc2 : clientHasActiveBooking (book_slot s tg sid now).2 tg2 = true
    · rw [book_slot_none_of_active hc2]
    · rw [Bool.not_eq_true] at hc2
      have hsl2 : get_slot (get_or_create_user (book_slot s tg sid now).2 tg2).2 sid =
          some { sl with is_available := false } := by
        rw [get_slot, gocu_slots, ← get_slot]
        rw [hred]
        show get_slot (bookSlotApply _ _ sid now) sid = _
        rw [get_slot]
        show (setSlotAvail (get_or_create_user s tg).2.slots sid false).find? _ = _
        rw [gocu_slots, find?_setSlotAvail]
        rw [get_slot] at hsl
        rw [hsl]
        simp [hsid]
      have hnf : slotIsFree (get_or_create_user (book_slot s tg sid now).2 tg2).2 sid =
          false := by
        rw [slotIsFree_eq hsl2]
      rw [book_slot_none_of_not_free hc2 hnf]

/-- Claim C3: if the client has no active reservation and the slot
exists and is available, `book_slot` succeeds: it flips the slot's flag
to `false`, appends exactly one new active reservation referencing the
client and the slot, returns that reservation's id, and any subsequent
`book_slot` attempt on the same slot (by any client) fails with `None`. -/
theorem C3_reserve_success (s : DBState) (tg sid : Nat) (now : Int) (sl : Slot)
    (hre : Reachable s)
    (hno : clientHasActiveBooking s tg = false)
    (hsl : get_slot s sid = some sl)
    (hav : sl.is_available = true) :
    (book_slot s tg sid now).1 = some s.nextBookingId ∧
    get_slot (book_slot s tg sid now).2 sid = some { sl with is_available := false } ∧
    (∃ uid, (book_slot s tg sid now).2.bookings =
        s.bookings ++ [⟨s.nextBookingId, uid, sid, "active", now⟩] ∧
      ∃ u ∈ (book_slot s tg sid now).2.users, u.id = uid ∧ u.tg_id = tg) ∧
    ∀ tg2 now2, (book_slot (book_slot s tg sid now).2 tg2 sid now2).1 = none :=
  book_slot_success s tg sid now sl (reachable_inv hre) hno hsl hav

/-- The single-slot state used to witness Claim C3. -/
def c3State : DBState := create_slot dbInit "2025-06-10" "14:00"

theorem C3_witness :
    (book_slot c3State 100 1 0).1 = some c3State.nextBookingId ∧
    get_slot (book_slot c3State 100 1 0).2 1 =
      some ⟨1, "2025-06-10", "14:00", false⟩ ∧
    (∃ uid, (book_slot c3State 100 1 0).2.bookings =
        c3State.bookings ++ [⟨c3State.nextBookingId, uid, 1, "active", 0⟩] ∧
      ∃ u ∈ (book_slot c3State 100 1 0).2.users, u.id = uid ∧ u.tg_id = 100) ∧
    ∀ tg2 now2, (book_slot (book_slot c3State 100 1 0).2 tg2 1 now2).1 = none :=
  C3_reserve_success c3State 100 1 0 ⟨1, "2025-06-10", "14:00", true⟩
    (Reachable.step_create_slot _ _ Reachable.init) (by decide) (by decide) rfl

/-! ### Claim C4 -/

/-- A state where client 100 already holds an active reservation while
slot 2 is still available: a pure `AlreadyBooked` failure cause. -/
def c4StateA : DBState :=
  (book_slot (create_slot (create_slot dbInit "2025-06-10" "14:00")
    "2025-06-10" "15:00") 100 1 0).2

/-- A state where client 100 has no reservation and slot 2 does not
exist: a pure `SlotUnavailable` failure cause. -/
def c4StateS : DBState := create_slot dbInit "2025-06-10" "14:00"

/-- Claim C4, as stated, is false: on an `AlreadyBooked` cause and on a
`SlotUnavailable` cause `book_slot` returns the same value `none`, and
`confirm_booking` reports the same single combined failure text, so the
front end cannot tell the two causes apart. -/
theorem C4_counterexample :
    clientHasActiveBooking c4StateA 100 = true ∧
    slotIsFree c4StateA 2 = true ∧
    clientHasActiveBooking c4StateS 100 = false ∧
    get_slot c4StateS 2 = none ∧
    (book_slot c4StateA 100 2 1).1 = none ∧
    (book_slot c4StateS 100 2 1).1 = none ∧
    (confirm_booking c4StateA [] 100 2 "X" "7" 1).map (·.1) =
      (confirm_booking c4StateS [] 100 2 "X" "7" 1).map (·.1) ∧
    (confirm_booking c4StateA [] 100 2 "X" "7" 1).map (·.1) =
      some (.failureMsg bookFailText) := by
  refine ⟨?_, ?_, ?_, ?_, ?_, ?_, ?_, ?_⟩ <;> decide

theorem confirm_booking_fail_eq (s : DBState) (jobs : List Job) (tg sid : Nat)
    (name phone : String) (now : Int)
    (hfail : (book_slot (update_user_info s tg name phone) tg sid now).1 = none) :
    confirm_booking s jobs tg sid name phone now =
      some (.failureMsg bookFailText,
            (book_slot (update_user_info s tg name phone) tg sid now).2, jobs) := by
  have hsplit : book_slot (update_user_info s tg name phone) tg sid now =
      (none, (book_slot (update_user_info s tg name phone) tg sid now).2) := by
    rw [← hfail]
  unfold confirm_booking
  rw [hsplit]

/-- Claim C4 (amended): the two failure causes are not distinguished;
whenever `book_slot` returns `None` — whether the client already has an
active reservation or the slot is missing or taken — `confirm_booking`
reports the one combined failure message. -/
theorem C4_combined_failure_message (s : DBState) (jobs : List Job) (tg sid : Nat)
    (name phone : String) (now : Int)
    (hfail : (book_slot (update_user_info s tg name phone) tg sid now).1 = none) :
    confirm_booking s jobs tg sid name phone now =
      some (.failureMsg bookFailText,
            (book_slot (update_user_info s tg name phone) tg sid now).2, jobs) :=
  confirm_booking_fail_eq s jobs tg sid name phone now hfail

theorem C4_witness :
    confirm_booking c4StateS [] 100 2 "X" "7" 1 =
      some (.failureMsg bookFailText,
            (book_slot (update_user_info c4StateS 100 "X" "7") 100 2 1).2, []) :=
  C4_combined_failure_message c4StateS [] 100 2 "X" "7" 1 (by decide)

/-! ### Claim C5 -/

theorem cancel_booking_reminders (s : DBState) (bid : Nat) :
    (cancel_booking s bid).2.reminders = s.reminders := by
  unfold cancel_booking
  cases s.bookings.find? (fun b => b.id == bid && b.status == "active") with
  | none => rfl
  | some b => rfl

theorem cancel_booking_state (s : DBState) (bid : Nat) {b : Booking}
    (hf : s.bookings.find? (fun b => b.id == bid && b.status == "active") = some b) :
    (cancel_booking s bid).2 =
      { s with
        bookings := s.bookings.map (fun b2 =>
          if b2.id == bid then { b2 with status := "cancelled" } else b2),
        slots := setSlotAvail s.slots b.slot_id true } := by
  unfold cancel_booking
  rw [hf]

/-- Claim C5: cancelling a reservation id that is absent or not active
is a no-op returning `None` with the store unchanged; cancelling an
active reservation marks it cancelled, reopens its slot and returns the
slot's `(date, time)`; and the client-cancel flow leaves no reminder
record for the reservation. -/
theorem C5_cancel (s : DBState) (jobs : List Job) (bid : Nat) (hre : Reachable s) :
    (s.bookings.find? (fun b => b.id == bid && b.status == "active") = none →
       cancel_booking s bid = (none, s)) ∧
    (∀ b ∈ s.bookings, b.id = bid → b.status = "active" →
       ∃ sl ∈ s.slots, sl.id = b.slot_id ∧
         (cancel_booking s bid).1 = some (sl.date, sl.time) ∧
         (∀ b2 ∈ (cancel_booking s bid).2.bookings,
            b2.id = bid → b2.status = "cancelled") ∧
         (∀ sl2 ∈ (cancel_booking s bid).2.slots,
            sl2.id = b.slot_id → sl2.is_available = true)) ∧
    (∀ r ∈ (user_cancel_booking s jobs bid).2.1.reminders, r.booking_id ≠ bid) := by
  have hInv := reachable_inv hre
  refine ⟨?_, ?_, ?_⟩
  · intro hf
    unfold cancel_booking
    rw [hf]
  · intro b hb hbid hbact
    have hfs : (s.bookings.find?
        (fun b => b.id == bid && b.status == "active")).isSome := by
      rw [List.find?_isSome]
      exact ⟨b, hb, by simp [hbid, hbact]⟩
    obtain ⟨b₀, hf⟩ := Option.isSome_iff_exists.mp hfs
    have hb₀m : b₀ ∈ s.bookings := List.mem_of_find?_eq_some hf
    have hb₀p := List.find?_some hf
    simp only [Bool.and_eq_true, beq_iff_eq] at hb₀p
    have hb₀b : b₀ = b := by
      apply List.inj_on_of_nodup_map hInv.bk_nodup hb₀m hb
      show b₀.id = b.id
      rw [hb₀p.1, hbid]
    rw [hb₀b] at hf
    obtain ⟨slw, hslw, hslwid, _⟩ := hInv.act_slot b hb hbact
    have hfsl : (s.slots.find? (fun x => x.id == b.slot_id)).isSome := by
      rw [List.find?_isSome]
      exact ⟨slw, hslw, by simp [hslwid]⟩
    obtain ⟨sl₀, hfsl0⟩ := Option.isSome_iff_exists.mp hfsl
    have hsl₀m : sl₀ ∈ s.slots := List.mem_of_find?_eq_some hfsl0
    have hsl₀id : sl₀.id = b.slot_id := by
      have := List.find?_some hfsl0
      simpa [beq_iff_eq] using this
    refine ⟨sl₀, hsl₀m, hsl₀id, ?_, ?_, ?_⟩
    · have hgs : get_slot (cancel_booking s bid).2 b.slot_id =
          some { sl₀ with is_available := true } := by
        rw [cancel_booking_state s bid hf, get_slot]
        show (setSlotAvail s.slots b.slot_id true).find? _ = _
        rw [find?_setSlotAvail, hfsl0]
        simp [hsl₀id]
      have hfst : (cancel_booking s bid).1 =
          (get_slot (cancel_booking s bid).2 b.slot_id).map
            (fun sl => (sl.date, sl.time)) := by
        unfold cancel_booking
        rw [hf]
      rw [hfst, hgs]
      rfl
    · intro b2 hb2 hb2id
      rw [cancel_booking_state s bid hf] at hb2
      simp only [List.mem_map] at hb2
      obtain ⟨b0, hb0, rfl⟩ := hb2
      by_cases hq : b0.id = bid
      · simp [hq]
      · have : (b0.id == bid) = false := by simp [hq]
        simp only [this, Bool.false_eq_true, if_false] at hb2id ⊢
        exact absurd hb2id hq
    · intro sl2 hsl2 hsl2id
      rw [cancel_booking_state s bid hf] at hsl2
      simp only [setSlotAvail, List.mem_map] at hsl2
      obtain ⟨sl0, hsl0, rfl⟩ := hsl2
      by_cases hq : sl0.id = b.slot_id
      · simp [hq]
      · have : (sl0.id == b.slot_id) = false := by simp [hq]
        simp only [this, Bool.false_eq_true, if_false] at hsl2id ⊢
        exact absurd hsl2id hq
  · intro r hr
    unfold user_cancel_booking at hr
    rw [cancel_booking_reminders] at hr
    unfold delete_reminder at hr
    cases hfr : s.reminders.find? (fun r2 => r2.booking_id == bid) with
    | none =>
        rw [hfr] at hr
        rw [List.find?_eq_none] at hfr
        have := hfr r hr
        simpa [beq_iff_eq] using this
    | some r0 =>
        rw [hfr] at hr
        have := List.mem_filter.mp hr
        simpa using this.2

theorem C5_witness :
    ((c2State.bookings.find? (fun b => b.id == 1 && b.status == "active") = none →
       cancel_booking c2State 1 = (none, c2State)) ∧
    (∀ b ∈ c2State.bookings, b.id = 1 → b.status = "active" →
       ∃ sl ∈ c2State.slots, sl.id = b.slot_id ∧
         (cancel_booking c2State 1).1 = some (sl.date, sl.time) ∧
         (∀ b2 ∈ (cancel_booking c2State 1).2.bookings,
            b2.id = 1 → b2.status = "cancelled") ∧
         (∀ sl2 ∈ (cancel_booking c2State 1).2.slots,
            sl2.id = b.slot_id → sl2.is_available = true)) ∧
    (∀ r ∈ (user_cancel_booking c2State [] 1).2.1.reminders, r.booking_id ≠ 1)) :=
  C5_cancel c2State [] 1
    (Reachable.step_book_slot 100 1 0 (Reachable.step_create_slot _ _ Reachable.init))

/-! ### Claim C6 -/

/-- Claim C6: `schedule_reminder` computes the fire time as exactly the
slot datetime minus 24 hours (1440 minutes); if that time is at or
before `now` it creates no reminder record and registers no job,
otherwise it persists a record with that fire time and the job id
deterministically derived from the reservation id. -/
theorem C6_reminder_fire_time (s : DBState) (jobs : List Job) (bid : Nat)
    (dstr tstr : String) (now T : Int)
    (hparse : parseDateTimeMin dstr tstr = some T) :
    (T - 1440 ≤ now → schedule_reminder s jobs bid dstr tstr now = some (s, jobs)) ∧
    (now < T - 1440 →
      ∃ s' jobs', schedule_reminder s jobs bid dstr tstr now = some (s', jobs') ∧
        (⟨bid, T - 1440, mkJid bid⟩ : Reminder) ∈ s'.reminders ∧
        (⟨mkJid bid, T - 1440⟩ : Job) ∈ jobs' ∧
        s'.slots = s.slots ∧ s'.bookings = s.bookings ∧ s'.users = s.users ∧
        (∀ r ∈ s'.reminders, r ∈ s.reminders ∨ r.booking_id = bid)) := by
  constructor
  · intro hle
    unfold schedule_reminder
    rw [hparse]
    simp [hle]
  · intro hlt
    unfold schedule_reminder
    rw [hparse]
    have hnle : ¬ (T - 1440 ≤ now) := by omega
    simp only [hnle, if_false]
    refine ⟨_, _, rfl, ?_, ?_, rfl, rfl, rfl, ?_⟩
    · unfold save_reminder
      simp
    · unfold addJob
      simp
    · intro r hr
      unfold save_reminder at hr
      simp only [List.mem_append, List.mem_filter, List.mem_singleton] at hr
      rcases hr with ⟨hr, _⟩ | rfl
      · exact Or.inl hr
      · exact Or.inr rfl

theorem C6_witness :
    ((1065193320 : Int) - 1440 ≤ 0 →
      schedule_reminder dbInit [] 7 "2025-06-10" "14:00" 0 = some (dbInit, [])) ∧
    ((0 : Int) < 1065193320 - 1440 →
      ∃ s' jobs', schedule_reminder dbInit [] 7 "2025-06-10" "14:00" 0 =
          some (s', jobs') ∧
        (⟨7, 1065193320 - 1440, mkJid 7⟩ : Reminder) ∈ s'.reminders ∧
        (⟨mkJid 7, 1065193320 - 1440⟩ : Job) ∈ jobs' ∧
        s'.slots = dbInit.slots ∧ s'.bookings = dbInit.bookings ∧
        s'.users = dbInit.users ∧
        (∀ r ∈ s'.reminders, r ∈ dbInit.reminders ∨ r.booking_id = 7)) :=
  C6_reminder_fire_time dbInit [] 7 "2025-06-10" "14:00" 0 1065193320 (by decide)

/-! ### Claim C9 -/

theorem admin_add_times_loop (d : String) (parts : List String)
    (s : DBState) (n : Nat) :
    (parts.foldl (addTimesStep d) (s, n)).2 =
      n + (parts.filter (fun p => (parseTimeHM p).isSome)).length ∧
    (parts.foldl (addTimesStep d) (s, n)).1.slots.length =
      s.slots.length + (parts.filter (fun p => (parseTimeHM p).isSome)).length ∧
    ∀ sl ∈ (parts.foldl (addTimesStep d) (s, n)).1.slots,
      sl ∈ s.slots ∨ (sl.date = d ∧ sl.is_available = true) := by
  induction parts generalizing s n with
  | nil =>
      refine ⟨by simp, by simp, fun sl h => Or.inl h⟩
  | cons p parts ih =>
      cases hp : parseTimeHM p with
      | none =>
          have hstep : addTimesStep d (s, n) p = (s, n) := by
            unfold addTimesStep
            rw [hp]
          simp only [List.foldl_cons, hstep, List.filter_cons, hp,
            Option.isSome_none, Bool.false_eq_true, if_false]
          exact ih s n
      | some hm =>
          obtain ⟨hh, mm⟩ := hm
          have hstep : addTimesStep d (s, n) p =
              (create_slot s d (formatHM hh mm), n + 1) := by
            unfold addTimesStep
            rw [hp]
          have hfilter : (parseTimeHM p).isSome = true := by rw [hp]; rfl
          simp only [List.foldl_cons, hstep, List.filter_cons, hfilter,
            if_true, List.length_cons]
          obtain ⟨ih1, ih2, ih3⟩ := ih (create_slot s d (formatHM hh mm)) (n + 1)
          refine ⟨by rw [ih1]; omega, ?_, ?_⟩
          · rw [ih2]
            have : (create_slot s d (formatHM hh mm)).slots.length =
                s.slots.length + 1 := by
              unfold create_slot
              simp
            omega
          · intro sl hsl
            rcases ih3 sl hsl with hm | hnew
            · unfold create_slot at hm
              simp only [List.mem_append, List.mem_singleton] at hm
              rcases hm with hm | rfl
              · exact Or.inl hm
              · exact Or.inr ⟨rfl, rfl⟩
            · exact Or.inr hnew

/-- Claim C9: `admin_add_times` creates exactly one available slot (on
the chosen date) per time string that parses as `HH:MM`, skips every
string that does not parse without aborting the batch, and returns the
count of created slots; in particular the admin input
`"10:00, bad, 12:30"` splits into three pieces of which exactly 2 create
slots. -/
theorem C9_admin_add_times (s : DBState) (d : String) (parts : List String) :
    (admin_add_times s d parts).2 =
      (parts.filter (fun p => (parseTimeHM p).isSome)).length ∧
    (admin_add_times s d parts).1.slots.length =
      s.slots.length + (parts.filter (fun p => (parseTimeHM p).isSome)).length ∧
    (∀ sl ∈ (admin_add_times s d parts).1.slots,
       sl ∈ s.slots ∨ (sl.date = d ∧ sl.is_available = true)) ∧
    splitTimesInput "10:00, bad, 12:30" = ["10:00", "bad", "12:30"] ∧
    (admin_add_times s d ["10:00", "bad", "12:30"]).2 = 2 := by
  obtain ⟨h1, h2, h3⟩ := admin_add_times_loop d parts s 0
  rw [Nat.zero_add] at h1
  obtain ⟨g1, _, _⟩ := admin_add_times_loop d ["10:00", "bad", "12:30"] s 0
  unfold admin_add_times
  refine ⟨h1, h2, h3, by decide, ?_⟩
  rw [g1]
  decide

/-! ### Claim C10 -/

theorem book_slot_none_state (s : DBState) (tg sid : Nat) (now : Int)
    (hfail : (book_slot s tg sid now).1 = none) :
    (book_slot s tg sid now).2 = s ∨
    (book_slot s tg sid now).2 = (get_or_create_user s tg).2 := by
  by_cases hc : clientHasActiveBooking s tg = true
  · rw [book_slot_none_of_active hc]
    exact Or.inl rfl
  · rw [Bool.not_eq_true] at hc
    by_cases hfree : slotIsFree (get_or_create_user s tg).2 sid = true
    · exfalso
      have hred : (book_slot s tg sid now).1 = findActiveBookingId
          (bookSlotApply (get_or_create_user s tg).2 (get_or_create_user s tg).1 sid now)
          (get_or_create_user s tg).1 sid := by
        simp only [book_slot, hc, Bool.false_eq_true, if_false, hfree, if_true]
      rw [hred, findActiveBookingId] at hfail
      rw [Option.map_eq_none'] at hfail
      rw [List.find?_eq_none] at hfail
      apply hfail
        (⟨(get_or_create_user s tg).2.nextBookingId,
          (get_or_create_user s tg).1, sid, "active", now⟩ : Booking)
      · show _ ∈ (get_or_create_user s tg).2.bookings ++ [_]
        exact List.mem_append_right _ (List.mem_singleton_self _)
      · simp
    · rw [Bool.not_eq_true] at hfree
      rw [book_slot_none_of_not_free hc hfree]
      exact Or.inr rfl

/-- Claim C10: when `confirm_booking` fails because `book_slot` returns
`None`, no slot's availability changes and no booking row is inserted,
but the entered name and phone have already overwritten the client's
stored contact info (and a client row may have been created), and this
is not rolled back. -/
theorem C10_contact_info_not_rolled_back (s : DBState) (jobs : List Job)
    (tg sid : Nat) (name phone : String) (now : Int)
    (hfail : (book_slot (update_user_info s tg name phone) tg sid now).1 = none) :
    ∃ s₂, confirm_booking s jobs tg sid name phone now =
        some (.failureMsg bookFailText, s₂, jobs) ∧
      s₂.slots = s.slots ∧
      s₂.bookings = s.bookings ∧
      (∀ u ∈ s.users, u.tg_id = tg →
        ({ u with name := some name, phone := some phone } : User) ∈ s₂.users) ∧
      s.users.length ≤ s₂.users.length := by
  refine ⟨(book_slot (update_user_info s tg name phone) tg sid now).2,
    confirm_booking_fail_eq s jobs tg sid name phone now hfail, ?_, ?_, ?_, ?_⟩
  all_goals
    rcases book_slot_none_state (update_user_info s tg name phone) tg sid now hfail
      with hcase | hcase <;> rw [hcase]
  · rfl
  · rw [gocu_slots]
    exact rfl
  · rfl
  · rw [gocu_bookings]
    exact rfl
  · intro u hu htg
    show _ ∈ (update_user_info s tg name phone).users
    unfold update_user_info
    have := List.mem_map_of_mem
      (fun u2 : User => if u2.tg_id == tg
        then { u2 with name := some name, phone := some phone } else u2) hu
    simpa [htg] using this
  · intro u hu htg
    apply gocu_users_mono
    show _ ∈ (update_user_info s tg name phone).users
    unfold update_user_info
    have := List.mem_map_of_mem
      (fun u2 : User => if u2.tg_id == tg
        then { u2 with name := some name, phone := some phone } else u2) hu
    simpa [htg] using this
  · show (update_user_info s tg name phone).users.length ≥ _
    unfold update_user_info
    simp
  · show s.users.length ≤ (get_or_create_user (update_user_info s tg name phone) tg).2.users.length
    have hlen : (update_user_info s tg name phone).users.length = s.users.length := by
      unfold update_user_info
      simp
    unfold get_or_create_user
    cases findUserByTg (update_user_info s tg name phone) tg <;> simp [hlen]

/-- A state with one stored client and no slots: booking fails while the
contact info has already been overwritten. -/
def c10State : DBState := ⟨[⟨1, 100, some "Old", some "000"⟩], [], [], [], 2, 1, 1⟩

theorem C10_witness :
    ∃ s₂, confirm_booking c10State [] 100 1 "New" "111" 0 =
        some (.failureMsg bookFailText, s₂, []) ∧
      s₂.slots = c10State.slots ∧
      s₂.bookings = c10State.bookings ∧
      (∀ u ∈ c10State.users, u.tg_id = 100 →
        ({ u with name := some "New", phone := some "111" } : User) ∈ s₂.users) ∧
      c10State.users.length ≤ s₂.users.length :=
  C10_contact_info_not_rolled_back c10State [] 100 1 "New" "111" 0 (by decide)

/-! ### Claim C8

`Database.book_slot` runs its SQL statements across several `await`
points of the coroutine, with `get_or_create_user` committing on a
second connection in between; the asyncio event loop may switch tasks at
every `await`.  The phases below are exactly the named pieces
`book_slot` is composed of (`clientHasActiveBooking`,
`get_or_create_user`, `slotIsFree`, `bookSlotApply`,
`findActiveBookingId`); interleaving two attempts on the same slot so
that both availability reads happen before either write commits makes
both attempts succeed. -/

/-- Base state of the race: one available slot, no users. -/
def c8Base : DBState := create_slot dbInit "2025-06-10" "14:00"

/-- Task A (client 100) finishes its active-check and user lookup. -/
def c8s1 : DBState := (get_or_create_user c8Base 100).2

/-- Task A's user id. -/
def c8uidA : Nat := (get_or_create_user c8Base 100).1

/-- Task B (client 200) runs its active-check and user lookup before A
commits its write. -/
def c8s2 : DBState := (get_or_create_user c8s1 200).2

/-- Task B's user id. -/
def c8uidB : Nat := (get_or_create_user c8s1 200).1

/-- Task A commits its slot update and booking insert. -/
def c8s3 : DBState := bookSlotApply c8s2 c8uidA 1 0

/-- Task A's returned booking id. -/
def c8resA : Option Nat := findActiveBookingId c8s3 c8uidA 1

/-- Task B, whose availability read predates A's commit, commits too. -/
def c8s4 : DBState := bookSlotApply c8s3 c8uidB 1 0

/-- Task B's returned booking id. -/
def c8resB : Option Nat := findActiveBookingId c8s4 c8uidB 1

/-- Claim C8 fails on the code: under the interleaving in which both
tasks pass their checks (both guards evaluate exactly as `book_slot`
evaluates them at those intermediate states) before either task commits,
both `book_slot` attempts on slot 1 return a booking id, and the final
store holds two active bookings on the same slot. -/
theorem C8_race_both_succeed :
    clientHasActiveBooking c8Base 100 = false ∧
    slotIsFree c8s1 1 = true ∧
    clientHasActiveBooking c8s1 200 = false ∧
    slotIsFree c8s2 1 = true ∧
    c8resA = some 1 ∧
    c8resB = some 2 ∧
    (c8s4.bookings.filter
      (fun b => b.slot_id == 1 && b.status == "active")).length = 2 := by
  decide

/-! ### Claim C7 -/

theorem restore_fold_none (now : Int) (rows : List ReminderRow) :
    rows.foldl (restoreStep now) none = none := by
  induction rows with
  | nil => rfl
  | cons r rows ih =>
      rw [List.foldl_cons]
      show rows.foldl (restoreStep now) none = none
      exact ih

theorem schedule_reminder_some_eq (s : DBState) (jobs : List Job) (bid : Nat)
    (dateStr timeStr : String) (now T : Int)
    (hp : parseDateTimeMin dateStr timeStr = some T) :
    schedule_reminder s jobs bid dateStr timeStr now =
      if T - 1440 ≤ now then some (s, jobs)
      else some (save_reminder s bid (T - 1440) (mkJid bid),
                 addJob jobs (mkJid bid) (T - 1440)) := by
  unfold schedule_reminder
  rw [hp]

theorem schedule_reminder_none_eq (s : DBState) (jobs : List Job) (bid : Nat)
    (dateStr timeStr : String) (now : Int)
    (hp : parseDateTimeMin dateStr timeStr = none) :
    schedule_reminder s jobs bid dateStr timeStr now = none := by
  unfold schedule_reminder
  rw [hp]

theorem restoreStep_some_eq (now : Int) (s : DBState) (j : List Job) (r : ReminderRow) :
    restoreStep now (some (s, j)) r =
      if (r.status != "active" || decide (r.run_at ≤ now)) = true
      then some ((delete_reminder s r.booking_id).2, j)
      else schedule_reminder s j r.booking_id r.date r.time now := rfl

theorem restoreStep_bad (now : Int) (s : DBState) (j : List Job) (r : ReminderRow)
    (h : r.status ≠ "active" ∨ r.run_at ≤ now) :
    restoreStep now (some (s, j)) r = some ((delete_reminder s r.booking_id).2, j) := by
  rw [restoreStep_some_eq]
  have hc : (r.status != "active" || decide (r.run_at ≤ now)) = true := by
    rcases h with h | h
    · simp [h]
    · simp [h]
  rw [if_pos hc]

theorem restoreStep_good (now : Int) (s : DBState) (j : List Job) (r : ReminderRow)
    (hact : r.status = "active") (hlt : now < r.run_at)
    (hparse : parseDateTimeMin r.date r.time = some (r.run_at + 1440)) :
    restoreStep now (some (s, j)) r =
      some (save_reminder s r.booking_id r.run_at (mkJid r.booking_id),
            addJob j (mkJid r.booking_id) r.run_at) := by
  rw [restoreStep_some_eq]
  have hc : (r.status != "active" || decide (r.run_at ≤ now)) = false := by
    simp [hact]
    omega
  rw [if_neg (by rw [hc]; exact Bool.false_ne_true)]
  rw [schedule_reminder_some_eq _ _ _ _ _ _ _ hparse]
  have he : r.run_at + 1440 - 1440 = r.run_at := by omega
  rw [he]
  rw [if_neg (by omega : ¬ (r.run_at ≤ now))]

theorem restoreStep_char (now : Int) (s : DBState) (j : List Job) (r : ReminderRow)
    {s₁ : DBState} {j₁ : List Job}
    (h : restoreStep now (some (s, j)) r = some (s₁, j₁)) :
    (s₁ = (delete_reminder s r.booking_id).2 ∧ j₁ = j) ∨
    (s₁ = s ∧ j₁ = j) ∨
    (∃ T, parseDateTimeMin r.date r.time = some T ∧
      s₁ = save_reminder s r.booking_id (T - 1440) (mkJid r.booking_id) ∧
      j₁ = addJob j (mkJid r.booking_id) (T - 1440)) := by
  rw [restoreStep_some_eq] at h
  by_cases hc : (r.status != "active" || decide (r.run_at ≤ now)) = true
  · rw [if_pos hc] at h
    have := Option.some.inj h
    left
    exact ⟨congrArg Prod.fst this.symm, congrArg Prod.snd this.symm⟩
  · rw [if_neg hc] at h
    cases hp : parseDateTimeMin r.date r.time with
    | none =>
        rw [schedule_reminder_none_eq _ _ _ _ _ _ hp] at h
        exact absurd h (by simp)
    | some T =>
        rw [schedule_reminder_some_eq _ _ _ _ _ _ _ hp] at h
        by_cases hle : T - 1440 ≤ now
        · rw [if_pos hle] at h
          have := Option.some.inj h
          right; left
          exact ⟨congrArg Prod.fst this.symm, congrArg Prod.snd this.symm⟩
        · rw [if_neg hle] at h
          have := Option.some.inj h
          right; right
          exact ⟨T, rfl, congrArg Prod.fst this.symm, congrArg Prod.snd this.symm⟩

theorem delete_reminder_absent (s : DBState) (bid : Nat) :
    ∀ rm ∈ (delete_reminder s bid).2.reminders, rm.booking_id ≠ bid := by
  unfold delete_reminder
  cases hf : s.reminders.find? (fun r => r.booking_id == bid) with
  | none =>
      intro rm hrm
      rw [List.find?_eq_none] at hf
      have := hf rm hrm
      simpa using this
  | some r0 =>
      intro rm hrm
      have := (List.mem_filter.mp hrm).2
      simpa using this

theorem delete_reminder_sub (s : DBState) (bid : Nat) :
    ∀ rm ∈ (delete_reminder s bid).2.reminders, rm ∈ s.reminders := by
  unfold delete_reminder
  cases hf : s.reminders.find? (fun r => r.booking_id == bid) with
  | none => exact fun rm hrm => hrm
  | some r0 => exact fun rm hrm => (List.mem_filter.mp hrm).1

theorem delete_reminder_keep (s : DBState) (bid : Nat) (rm : Reminder)
    (hrm : rm ∈ s.reminders) (hne : rm.booking_id ≠ bid) :
    rm ∈ (delete_reminder s bid).2.reminders := by
  unfold delete_reminder
  cases hf : s.reminders.find? (fun r => r.booking_id == bid) with
  | none => exact hrm
  | some r0 =>
      apply List.mem_filter.mpr
      exact ⟨hrm, by simpa using hne⟩

theorem save_reminder_mem_cases (s : DBState) (bid : Nat) (runAt : Int)
    (jid : String) :
    ∀ rm ∈ (save_reminder s bid runAt jid).reminders,
      rm ∈ s.reminders ∨ rm = ⟨bid, runAt, jid⟩ := by
  unfold save_reminder
  intro rm hrm
  rcases List.mem_append.mp hrm with hl | hr
  · exact Or.inl (List.mem_filter.mp hl).1
  · exact Or.inr (List.mem_singleton.mp hr)

theorem save_reminder_keep (s : DBState) (bid : Nat) (runAt : Int)
    (jid : String) (rm : Reminder)
    (hrm : rm ∈ s.reminders) (hne : rm.booking_id ≠ bid) :
    rm ∈ (save_reminder s bid runAt jid).reminders := by
  unfold save_reminder
  apply List.mem_append_left
  apply List.mem_filter.mpr
  exact ⟨hrm, by simpa using hne⟩

theorem filter_ne_then_eq (j : List Job) (jid : String) :
    (j.filter (fun jb => jb.id != jid)).filter (fun jb => jb.id == jid) = [] := by
  induction j with
  | nil => rfl
  | cons a j ih =>
      by_cases hc : a.id = jid
      · simp only [List.filter_cons]
        have : (a.id != jid) = false := by simp [hc]
        rw [this]
        simp only [Bool.false_eq_true, if_false]
        exact ih
      · simp only [List.filter_cons]
        have h1 : (a.id != jid) = true := by simp [hc]
        rw [h1]
        simp only [if_true]
        rw [List.filter_cons]
        have h2 : (a.id == jid) = false := by simp [hc]
        rw [h2]
        simp only [Bool.false_eq_true, if_false]
        exact ih

theorem filter_addJob_self (j : List Job) (jid : String) (runAt : Int) :
    (addJob j jid runAt).filter (fun jb => jb.id == jid) = [⟨jid, runAt⟩] := by
  unfold addJob
  rw [List.filter_append, filter_ne_then_eq]
  simp

theorem filter_addJob_ne (j : List Job) (jid jid' : String) (runAt : Int)
    (h : jid' ≠ jid) :
    (addJob j jid' runAt).filter (fun jb => jb.id == jid) =
      j.filter (fun jb => jb.id == jid) := by
  unfold addJob
  rw [List.filter_append]
  have h2 : (([⟨jid', runAt⟩] : List Job).filter (fun jb => jb.id == jid)) = [] := by
    simp [h]
  rw [h2, List.append_nil]
  induction j with
  | nil => rfl
  | cons a j ih =>
      by_cases hc : a.id = jid'
      · have ha1 : (a.id != jid') = false := by simp [hc]
        have ha2 : (a.id == jid) = false := by
          simp only [beq_eq_false_iff_ne, ne_eq]
          rw [hc]
          exact h
        rw [List.filter_cons, ha1]
        simp only [Bool.false_eq_true, if_false]
        rw [List.filter_cons, ha2]
        simp only [Bool.false_eq_true, if_false]
        exact ih
      · have ha1 : (a.id != jid') = true := by simp [hc]
        rw [List.filter_cons, ha1]
        simp only [if_true]
        rw [List.filter_cons, List.filter_cons]
        cases hq : (a.id == jid) with
        | true => simp only [if_true]; rw [ih]
        | false => simp only [Bool.false_eq_true, if_false]; exact ih

theorem restore_fold_bid_absent (now : Int) (rows : List ReminderRow) :
    ∀ (s : DBState) (j : List Job) (s' : DBState) (j' : List Job) (bid : Nat),
    rows.foldl (restoreStep now) (some (s, j)) = some (s', j') →
    (∀ r ∈ rows, r.booking_id ≠ bid) →
    (∀ rm ∈ s.reminders, rm.booking_id ≠ bid) →
    ∀ rm ∈ s'.reminders, rm.booking_id ≠ bid := by
  induction rows with
  | nil =>
      intro s j s' j' bid hfold _ hs
      rw [List.foldl_nil] at hfold
      injection hfold with hpair
      injection hpair with h1 h2
      subst h1
      exact hs
  | cons r rows ih =>
      intro s j s' j' bid hfold hne hs
      rw [List.foldl_cons] at hfold
      cases hstep : restoreStep now (some (s, j)) r with
      | none =>
          rw [hstep, restore_fold_none] at hfold
          exact absurd hfold (by simp)
      | some p =>
          obtain ⟨s₁, j₁⟩ := p
          rw [hstep] at hfold
          have hchar := restoreStep_char now s j r hstep
          have hs₁ : ∀ rm ∈ s₁.reminders, rm.booking_id ≠ bid := by
            rcases hchar with ⟨hs1, _⟩ | ⟨hs1, _⟩ | ⟨T, _, hs1, _⟩
            · rw [hs1]
              intro rm hrm
              exact hs rm (delete_reminder_sub s r.booking_id rm hrm)
            · rw [hs1]
              exact hs
            · rw [hs1]
              intro rm hrm
              rcases save_reminder_mem_cases _ _ _ _ rm hrm with hin | heq
              · exact hs rm hin
              · rw [heq]
                exact hne r (List.mem_cons_self _ _)
          exact ih s₁ j₁ s' j' bid hfold
            (fun r' hr' => hne r' (List.mem_cons_of_mem _ hr')) hs₁

theorem restore_fold_filter_eq (now : Int) (rows : List ReminderRow) :
    ∀ (s : DBState) (j : List Job) (s' : DBState) (j' : List Job) (jid : String),
    rows.foldl (restoreStep now) (some (s, j)) = some (s', j') →
    (∀ r ∈ rows, mkJid r.booking_id ≠ jid) →
    j'.filter (fun jb => jb.id == jid) = j.filter (fun jb => jb.id == jid) := by
  induction rows with
  | nil =>
      intro s j s' j' jid hfold _
      rw [List.foldl_nil] at hfold
      injection hfold with hpair
      injection hpair with h1 h2
      subst h2
      rfl
  | cons r rows ih =>
      intro s j s' j' jid hfold hne
      rw [List.foldl_cons] at hfold
      cases hstep : restoreStep now (some (s, j)) r with
      | none =>
          rw [hstep, restore_fold_none] at hfold
          exact absurd hfold (by simp)
      | some p =>
          obtain ⟨s₁, j₁⟩ := p
          rw [hstep] at hfold
          have hchar := restoreStep_char now s j r hstep
          have htail := ih s₁ j₁ s' j' jid hfold
            (fun r' hr' => hne r' (List.mem_cons_of_mem _ hr'))
          rcases hchar with ⟨_, hj1⟩ | ⟨_, hj1⟩ | ⟨T, _, _, hj1⟩
          · rw [htail, hj1]
          · rw [htail, hj1]
          · rw [htail, hj1, filter_addJob_ne _ _ _ _ (hne r (List.mem_cons_self _ _))]

theorem restore_fold_rm_mem (now : Int) (rows : List ReminderRow) :
    ∀ (s : DBState) (j : List Job) (s' : DBState) (j' : List Job) (rm : Reminder),
    rows.foldl (restoreStep now) (some (s, j)) = some (s', j') →
    (∀ r ∈ rows, r.booking_id ≠ rm.booking_id) →
    rm ∈ s.reminders → rm ∈ s'.reminders := by
  induction rows with
  | nil =>
      intro s j s' j' rm hfold _ hs
      rw [List.foldl_nil] at hfold
      injection hfold with hpair
      injection hpair with h1 h2
      subst h1
      exact hs
  | cons r rows ih =>
      intro s j s' j' rm hfold hne hs
      rw [List.foldl_cons] at hfold
      cases hstep : restoreStep now (some (s, j)) r with
      | none =>
          rw [hstep, restore_fold_none] at hfold
          exact absurd hfold (by simp)
      | some p =>
          obtain ⟨s₁, j₁⟩ := p
          rw [hstep] at hfold
          have hchar := restoreStep_char now s j r hstep
          have hs₁ : rm ∈ s₁.reminders := by
            rcases hchar with ⟨hs1, _⟩ | ⟨hs1, _⟩ | ⟨T, _, hs1, _⟩
            · rw [hs1]
              exact delete_reminder_keep s r.booking_id rm hs
                (fun he => hne r (List.mem_cons_self _ _) he.symm)
            · rw [hs1]
              exact hs
            · rw [hs1]
              exact save_reminder_keep _ _ _ _ rm hs
                (fun he => hne r (List.mem_cons_self _ _) he.symm)
          exact ih s₁ j₁ s' j' rm hfold
            (fun r' hr' => hne r' (List.mem_cons_of_mem _ hr')) hs₁

theorem restore_fold_main (now : Int) (rows : List ReminderRow) :
    ∀ (s : DBState) (j : List Job),
    (∀ r ∈ rows, parseDateTimeMin r.date r.time = some (r.run_at + 1440)) →
    ((rows.map (fun r => mkJid r.booking_id)).Nodup) →
    (∀ r ∈ rows, j.filter (fun jb => jb.id == mkJid r.booking_id) = []) →
    ∃ s' j', rows.foldl (restoreStep now) (some (s, j)) = some (s', j') ∧
      ∀ r ∈ rows,
        ((r.status ≠ "active" ∨ r.run_at ≤ now) →
          (∀ rm ∈ s'.reminders, rm.booking_id ≠ r.booking_id) ∧
          j'.filter (fun jb => jb.id == mkJid r.booking_id) = []) ∧
        (r.status = "active" → now < r.run_at →
          (⟨r.booking_id, r.run_at, mkJid r.booking_id⟩ : Reminder) ∈ s'.reminders ∧
          j'.filter (fun jb => jb.id == mkJid r.booking_id) =
            [⟨mkJid r.booking_id, r.run_at⟩]) := by
  induction rows with
  | nil =>
      intro s j _ _ _
      exact ⟨s, j, rfl, by simp⟩
  | cons r rows ih =>
      intro s j hcons hjid hclean
      have hjid' := List.nodup_cons.mp hjid
      have hne_jid : ∀ r' ∈ rows, mkJid r'.booking_id ≠ mkJid r.booking_id := by
        intro r' hr' he
        apply hjid'.1
        show mkJid r.booking_id ∈ _
        rw [← he]
        exact List.mem_map_of_mem _ hr'
      have hne_bid : ∀ r' ∈ rows, r'.booking_id ≠ r.booking_id := by
        intro r' hr' he
        exact hne_jid r' hr' (by rw [he])
      have hcons_tail : ∀ r' ∈ rows,
          parseDateTimeMin r'.date r'.time = some (r'.run_at + 1440) :=
        fun r' hr' => hcons r' (List.mem_cons_of_mem _ hr')
      by_cases hgood : r.status = "active" ∧ now < r.run_at
      · obtain ⟨hact, hlt⟩ := hgood
        have hstep := restoreStep_good now s j r hact hlt
          (hcons r (List.mem_cons_self _ _))
        rw [List.foldl_cons, hstep]
        have hclean₁ : ∀ r' ∈ rows,
            (addJob j (mkJid r.booking_id) r.run_at).filter
              (fun jb => jb.id == mkJid r'.booking_id) = [] := by
          intro r' hr'
          rw [filter_addJob_ne _ _ _ _ (fun he => hne_jid r' hr' he.symm)]
          exact hclean r' (List.mem_cons_of_mem _ hr')
        obtain ⟨s', j', hfold, hall⟩ := ih
          (save_reminder s r.booking_id r.run_at (mkJid r.booking_id))
          (addJob j (mkJid r.booking_id) r.run_at)
          hcons_tail hjid'.2 hclean₁
        refine ⟨s', j', hfold, ?_⟩
        intro r' hr'
        rcases List.mem_cons.mp hr' with rfl | hr'
        · constructor
          · intro hbadc
            exfalso
            rcases hbadc with h | h
            · exact h hact
            · omega
          · intro _ _
            constructor
            · apply restore_fold_rm_mem now rows _ _ _ _ _ hfold
              · exact fun r2 hr2 => hne_bid r2 hr2
              · unfold save_reminder
                exact List.mem_append_right _ (List.mem_singleton_self _)
            · have hkeep := restore_fold_filter_eq now rows _ _ _ _ _ hfold
                (fun r2 hr2 => hne_jid r2 hr2)
              rw [hkeep, filter_addJob_self]
        · exact hall r' hr'
      · have hbadr : r.status ≠ "active" ∨ r.run_at ≤ now := by
          rcases Classical.em (r.status = "active") with h | h
          · right
            rcases Classical.em (now < r.run_at) with h2 | h2
            · exact absurd ⟨h, h2⟩ hgood
            · omega
          · left
            exact h
        have hstep := restoreStep_bad now s j r hbadr
        rw [List.foldl_cons, hstep]
        have hclean₁ : ∀ r' ∈ rows,
            j.filter (fun jb => jb.id == mkJid r'.booking_id) = [] :=
          fun r' hr' => hclean r' (List.mem_cons_of_mem _ hr')
        obtain ⟨s', j', hfold, hall⟩ := ih
          ((delete_reminder s r.booking_id).2) j
          hcons_tail hjid'.2 hclean₁
        refine ⟨s', j', hfold, ?_⟩
        intro r' hr'
        rcases List.mem_cons.mp hr' with rfl | hr'
        · constructor
          · intro _
            constructor
            · exact restore_fold_bid_absent now rows _ _ _ _ _ hfold hne_bid
                (delete_reminder_absent s r'.booking_id)
            · have hkeep := restore_fold_filter_eq now rows _ _ _ _ _ hfold
                (fun r2 hr2 => hne_jid r2 hr2)
              rw [hkeep]
              exact hclean r' (List.mem_cons_self _ _)
          · intro hact hlt
            exfalso
            rcases hbadr with h | h
            · exact h hact
            · omega
        · exact hall r' hr'

/-- Claim C7: after `restore_reminders` runs over every durable reminder
record (each record appears as a joined row): every row whose booking is
no longer active or whose fire time has passed ends with no reminder
record and no live job; every row whose booking is active with a future
fire time ends with its record present and exactly one live job armed at
the stored fire time.  The hypotheses record what holds of the durable
store at startup: stored fire times equal the slot datetime minus 24h,
and the derived job ids are distinct. -/
theorem C7_restore_reconciliation (s : DBState) (now : Int)
    (hcons : ∀ r ∈ get_all_reminders s,
      parseDateTimeMin r.date r.time = some (r.run_at + 1440))
    (hjid : ((get_all_reminders s).map (fun r => mkJid r.booking_id)).Nodup)
    (hjoin : (get_all_reminders s).map (fun r => r.booking_id) =
      s.reminders.map (fun rm => rm.booking_id)) :
    ∃ s' jobs', restore_reminders s now = some (s', jobs') ∧
      (∀ rm ∈ s.reminders, ∃ r ∈ get_all_reminders s,
        r.booking_id = rm.booking_id) ∧
      ∀ r ∈ get_all_reminders s,
        ((r.status ≠ "active" ∨ r.run_at ≤ now) →
          (∀ rm ∈ s'.reminders, rm.booking_id ≠ r.booking_id) ∧
          jobs'.filter (fun jb => jb.id == mkJid r.booking_id) = []) ∧
        (r.status = "active" → now < r.run_at →
          (⟨r.booking_id, r.run_at, mkJid r.booking_id⟩ : Reminder) ∈ s'.reminders ∧
          jobs'.filter (fun jb => jb.id == mkJid r.booking_id) =
            [⟨mkJid r.booking_id, r.run_at⟩]) := by
  obtain ⟨s', j', hfold, hall⟩ := restore_fold_main now (get_all_reminders s) s []
    hcons hjid (fun r _ => rfl)
  refine ⟨s', j', hfold, ?_, hall⟩
  intro rm hrm
  have hmem : rm.booking_id ∈ s.reminders.map (fun rm2 => rm2.booking_id) :=
    List.mem_map_of_mem _ hrm
  rw [← hjoin] at hmem
  obtain ⟨r, hr, he⟩ := List.mem_map.mp hmem
  exact ⟨r, hr, he⟩

/-- A startup store with one live reminder (active booking, future fire
time) and one stale reminder (cancelled booking). -/
def c7State : DBState :=
  ⟨[⟨1, 100, none, none⟩, ⟨2, 200, none, none⟩],
   [⟨1, "2025-06-10", "14:00", false⟩, ⟨2, "2025-06-12", "10:00", false⟩],
   [⟨1, 1, 1, "active", 0⟩, ⟨2, 2, 2, "cancelled", 0⟩],
   [⟨1, 1065191880, "reminder_1"⟩, ⟨2, 1065194520, "reminder_2"⟩],
   3, 3, 3⟩

theorem C7_witness :
    ∃ s' jobs', restore_reminders c7State 0 = some (s', jobs') ∧
      (∀ rm ∈ c7State.reminders, ∃ r ∈ get_all_reminders c7State,
        r.booking_id = rm.booking_id) ∧
      ∀ r ∈ get_all_reminders c7State,
        ((r.status ≠ "active" ∨ r.run_at ≤ 0) →
          (∀ rm ∈ s'.reminders, rm.booking_id ≠ r.booking_id) ∧
          jobs'.filter (fun jb => jb.id == mkJid r.booking_id) = []) ∧
        (r.status = "active" → 0 < r.run_at →
          (⟨r.booking_id, r.run_at, mkJid r.booking_id⟩ : Reminder) ∈ s'.reminders ∧
          jobs'.filter (fun jb => jb.id == mkJid r.booking_id) =
            [⟨mkJid r.booking_id, r.run_at⟩]) :=
  C7_restore_reconciliation c7State 0 (by decide) (by decide) (by decide)

end Zapis
